import Mathlib

/-!
# OVC machine resource: reconciliation callbacks

A shallow embedding of `ovc/resource_ovc_machine.go`.  The resource callbacks
(`Exists`, `Read`, `Create`, `Update`, `Delete`), the `CustomizeDiff` hook, the
schema table, `flattenDisks` and `GetBootDiskID` are transcribed as pure
functions.  The remote API client is an explicit parameter and every remote
call is appended to a call trace, so that statements about which calls are
issued, and in which order, are statements about a list.
-/

namespace Ovc

/-! ## Remote API data (package `ovc` of the SDK), restricted to the fields the resource touches -/

/-- Go `error` values are carried as their message. -/
abbrev Err := String

/-- One element of `MachineInfo.Disks`; `Type_` is the Go field `Type`. -/
structure DiskInfo where
  Status : String
  SizeMax : Int
  Name : String
  Descr : String
  Type_ : String
  ID : Int
deriving DecidableEq, Repr

/-- One element of `MachineInfo.Accounts`. -/
structure Account where
  Login : String
  Password : String
deriving DecidableEq, Repr

/-- One element of `MachineInfo.Interfaces`. -/
structure NetInterface where
  IPAddress : String
deriving DecidableEq, Repr

/-- Result of `client.Machines.Get`. -/
structure MachineInfo where
  Cloudspaceid : Int
  Hostname : String
  Name : String
  Description : String
  Sizeid : Int
  Memory : Int
  Vcpus : Int
  Accounts : List Account
  Interfaces : List NetInterface
  Disks : List DiskInfo
deriving DecidableEq, Repr

/-- Argument of `Machines.Create`, `Machines.Update`, `Machines.Resize` and
`Machines.Delete`.  `ovc.MachineConfig{}` is the all-zero record. -/
structure MachineConfig where
  MachineID : String := ""
  CloudspaceID : Int := 0
  Name : String := ""
  Description : String := ""
  SizeID : Int := 0
  ImageID : Int := 0
  Disksize : Int := 0
  Memory : Int := 0
  Vcpus : Int := 0
  Userdata : String := ""
  Permanently : Bool := false
deriving DecidableEq, Repr

/-- Argument of `Disks.Update`. -/
structure DiskConfig where
  DiskID : Int := 0
  Size : Int := 0
  IOPS : Int := 0
deriving DecidableEq, Repr

/-- One remote call, as recorded in the call trace. -/
inductive Call where
  | MachinesGet (id : String)
  | MachinesCreate (cfg : MachineConfig)
  | MachinesUpdate (cfg : MachineConfig)
  | MachinesResize (cfg : MachineConfig)
  | MachinesDelete (cfg : MachineConfig)
  | DisksUpdate (cfg : DiskConfig)
deriving DecidableEq, Repr

/-- The remote API client (`*ovc.Client`).  Each operation answers from the
calls made so far and its argument, which covers every deterministic remote
behaviour, stateful ones included. -/
structure Client where
  MachinesGet : List Call → String → Except Err MachineInfo
  MachinesCreate : List Call → MachineConfig → Except Err String
  MachinesUpdate : List Call → MachineConfig → Except Err String
  MachinesResize : List Call → MachineConfig → Except Err String
  MachinesDelete : List Call → MachineConfig → Option Err
  DisksUpdate : List Call → DiskConfig → Option Err

/-! ## Resource attributes and `schema.ResourceData` -/

/-- One element of the `disks` attribute: the map built by `flattenDisks`,
with its six keys. -/
structure DiskRecord where
  status : String
  size_max : Int
  name : String
  description : String
  type : String
  id : Int
deriving DecidableEq, Repr

/-- The attributes of the resource schema, each at its schema type.  An
attribute that is absent reads as the zero value of its type, which is how
`d.Get` and `d.HasChange` present it.  The two `TypeFloat` attributes
(`update_time`, `creationtime`) are never read or written by the callbacks
and are left out. -/
structure Attrs where
  cloudspace_id : Int := 0
  name : String := ""
  description : String := ""
  size_id : Int := 0
  memory : Int := 0
  vcpus : Int := 0
  image_id : Int := 0
  disksize : Int := 0
  iops : Int := 0
  status : String := ""
  hostname : String := ""
  username : String := ""
  password : String := ""
  ip_address : String := ""
  disks : List DiskRecord := []
  userdata : String := ""
deriving DecidableEq, Repr

/-- The view `schema.ResourceData` gives a callback: the identifier, the
attribute values of the prior state (`old`), the planned values (`new`, prior
state merged with the diff) and the values `d.Get` returns (`cur`, the planned
values overlaid with what the callback has `d.Set` so far). -/
structure ResourceData where
  id : String
  old : Attrs
  new : Attrs
  cur : Attrs
deriving DecidableEq, Repr

/-- The `ResourceData` handed to a callback: nothing has been `Set` yet. -/
def ResourceData.fresh (id : String) (old new : Attrs) : ResourceData :=
  { id := id, old := old, new := new, cur := new }

/-- Go `d.Id()`. -/
def ResourceData.Id (d : ResourceData) : String := d.id

/-- Go `d.SetId(v)`. -/
def ResourceData.SetId (d : ResourceData) (v : String) : ResourceData :=
  { d with id := v }

/-- Go `d.Get(key)` with the type assertion of the call site; `key` is the
attribute's projection. -/
def ResourceData.Get {α : Type} (d : ResourceData) (key : Attrs → α) : α :=
  key d.cur

/-- Go `d.HasChange(key)`: prior state value against planned value.  Values
written with `d.Set` do not take part. -/
def ResourceData.HasChange {α : Type} [DecidableEq α] (d : ResourceData) (key : Attrs → α) : Bool :=
  decide (key d.old ≠ key d.new)

/-- Go `d.Set(key, v)`, with `upd` the record update of that key. -/
def ResourceData.Set (d : ResourceData) (upd : Attrs → Attrs) : ResourceData :=
  { d with cur := upd d.cur }

/-- The view `schema.ResourceDiff` gives `CustomizeDiff`. -/
structure ResourceDiff where
  id : String
  old : Attrs
  new : Attrs
deriving DecidableEq, Repr

/-- Go `diff.Id()`. -/
def ResourceDiff.Id (diff : ResourceDiff) : String := diff.id

/-- Go `diff.HasChange(key)`. -/
def ResourceDiff.HasChange {α : Type} [DecidableEq α] (diff : ResourceDiff) (key : Attrs → α) : Bool :=
  decide (key diff.old ≠ key diff.new)

/-- The diff the host plans from the state and planned values of `d`. -/
def ResourceData.toDiff (d : ResourceData) : ResourceDiff :=
  { id := d.id, old := d.old, new := d.new }

/-- What a callback leaves behind: the returned `error` (`none` is `nil`), the
resource data after its `SetId` and `Set` calls, and the call trace. -/
structure Outcome where
  err : Option Err
  d : ResourceData
  trace : List Call
deriving DecidableEq, Repr

/-! ## The functions of `resource_ovc_machine.go` -/

/-- The `CustomizeDiff` hook (lines 22 to 28). -/
def CustomizeDiff (diff : ResourceDiff) : Option Err :=
  if diff.Id ≠ "" && diff.HasChange (·.image_id) then
    some "Cannot change Image ID on existing machine"
  else
    none

/-- `flattenDisks` (lines 277 to 295); the argument is a pointer, `none` is `nil`. -/
def flattenDisks (machineInfo : Option MachineInfo) : List DiskRecord :=
  match machineInfo with
  | none => []
  | some machineInfo =>
    machineInfo.Disks.map fun disk =>
      { status := disk.Status
        size_max := disk.SizeMax
        name := disk.Name
        description := disk.Descr
        type := disk.Type_
        id := disk.ID }

/-- The loop of `GetBootDiskID` (lines 303 to 307): the identifier of the
first disk of type `"B"`, if the loop returns at all. -/
def bootDiskLoop : List DiskInfo → Option Int
  | [] => none
  | disk :: rest => if disk.Type_ = "B" then some disk.ID else bootDiskLoop rest

/-- The error of line 308. -/
def noBootDiskErr (name : String) : Err :=
  "Machine " ++ name ++ " has no boot disk"

/-- `GetBootDiskID` (lines 298 to 309). -/
def GetBootDiskID (client : Client) (id : String) (tr : List Call) : Except Err Int × List Call :=
  match client.MachinesGet tr id with
  | .error err => (.error err, tr ++ [Call.MachinesGet id])
  | .ok machineInfo =>
    match bootDiskLoop machineInfo.Disks with
    | some diskID => (.ok diskID, tr ++ [Call.MachinesGet id])
    | none => (.error (noBootDiskErr machineInfo.Name), tr ++ [Call.MachinesGet id])

/-- `resourceOvcMachineExists` (lines 141 to 148): the pair `(bool, error)`,
the resource data and the trace. -/
def resourceOvcMachineExists (d : ResourceData) (client : Client) (tr : List Call) :
    (Bool × Option Err) × ResourceData × List Call :=
  match client.MachinesGet tr d.Id with
  | .error _ => ((false, none), d, tr ++ [Call.MachinesGet d.Id])
  | .ok _ => ((true, none), d, tr ++ [Call.MachinesGet d.Id])

/-- The attribute writes of `resourceOvcMachineRead` after a successful `Get`
(lines 159 to 173). -/
def readAttrs (d : ResourceData) (machineInfo : MachineInfo) : ResourceData :=
  let d := d.Set fun a => { a with hostname := machineInfo.Hostname }
  let d :=
    match machineInfo.Accounts with
    | account :: _ =>
      (d.Set fun a => { a with username := account.Login }).Set
        fun a => { a with password := account.Password }
    | [] => d
  let d :=
    match machineInfo.Interfaces with
    | iface :: _ => d.Set fun a => { a with ip_address := iface.IPAddress }
    | [] => d
  let d := d.Set fun a => { a with memory := machineInfo.Memory }
  let d := d.Set fun a => { a with name := machineInfo.Name }
  let d := d.Set fun a => { a with description := machineInfo.Description }
  let d := d.Set fun a => { a with cloudspace_id := machineInfo.Cloudspaceid }
  let d := d.Set fun a => { a with size_id := machineInfo.Sizeid }
  let d := d.Set fun a => { a with vcpus := machineInfo.Vcpus }
  d.Set fun a => { a with disks := flattenDisks (some machineInfo) }

/-- `resourceOvcMachineRead` (lines 150 to 176). -/
def resourceOvcMachineRead (d : ResourceData) (client : Client) (tr : List Call) : Outcome :=
  match client.MachinesGet tr d.Id with
  | .error _ => { err := none, d := d.SetId "", trace := tr ++ [Call.MachinesGet d.Id] }
  | .ok machineInfo =>
    { err := none, d := readAttrs d machineInfo, trace := tr ++ [Call.MachinesGet d.Id] }

/-- The `machineConfig` that `resourceOvcMachineCreate` fills in (lines 180 to 189). -/
def createConfig (d : ResourceData) : MachineConfig :=
  { CloudspaceID := d.Get (·.cloudspace_id)
    Name := d.Get (·.name)
    Description := d.Get (·.description)
    SizeID := d.Get (·.size_id)
    ImageID := d.Get (·.image_id)
    Disksize := d.Get (·.disksize)
    Memory := d.Get (·.memory)
    Vcpus := d.Get (·.vcpus)
    Userdata := d.Get (·.userdata) }

/-- `resourceOvcMachineCreate` (lines 178 to 216).  `d.Get("iops")` is an
interface value holding an `int` (the zero value when the attribute is not
set), so it is `some _` and the test `iops != nil` of line 200 is kept as the
match on it. -/
def resourceOvcMachineCreate (d : ResourceData) (client : Client) (tr : List Call) : Outcome :=
  let machineConfig := createConfig d
  let tr1 := tr ++ [Call.MachinesCreate machineConfig]
  match client.MachinesCreate tr machineConfig with
  | .error err => { err := some err, d := d, trace := tr1 }
  | .ok machineID =>
    let d := d.SetId machineID
    let iops : Option Int := some (d.Get (·.iops))
    match iops with
    | none => resourceOvcMachineRead d client tr1
    | some iops =>
      match GetBootDiskID client machineID tr1 with
      | (.error err, tr2) => { err := some err, d := d, trace := tr2 }
      | (.ok bootDiskID, tr2) =>
        let diskConfig : DiskConfig := { DiskID := bootDiskID, IOPS := iops }
        match client.DisksUpdate tr2 diskConfig with
        | some err => { err := some err, d := d, trace := tr2 ++ [Call.DisksUpdate diskConfig] }
        | none => resourceOvcMachineRead d client (tr2 ++ [Call.DisksUpdate diskConfig])

/-- The `machineConfig` of `resourceOvcMachineUpdate` after lines 222 to 226. -/
def updateConfigName (d : ResourceData) : MachineConfig :=
  let machineConfig : MachineConfig := { MachineID := d.Id }
  if d.HasChange (·.name) then { machineConfig with Name := d.Get (·.name) } else machineConfig

/-- The `machineConfig` sent by `Machines.Update` (line 228 applied). -/
def updateConfigMeta (d : ResourceData) : MachineConfig :=
  { updateConfigName d with Description := d.Get (·.description) }

/-- The `machineConfig` as it stands when the resize block is reached. -/
def updateConfigAfterMeta (d : ResourceData) : MachineConfig :=
  if d.HasChange (·.description) then updateConfigMeta d else updateConfigName d

/-- The `machineConfig` sent by `Machines.Resize` (lines 235 and 236 applied). -/
def updateConfigResize (d : ResourceData) : MachineConfig :=
  { updateConfigAfterMeta d with Memory := d.Get (·.memory), Vcpus := d.Get (·.vcpus) }

/-- The `diskConfig` sent by `Disks.Update` (lines 250 to 258). -/
def updateDiskConfig (d : ResourceData) (bootDiskID : Int) : DiskConfig :=
  let diskConfig : DiskConfig := { DiskID := bootDiskID }
  let diskConfig :=
    if d.HasChange (·.iops) then { diskConfig with IOPS := d.Get (·.iops) } else diskConfig
  if d.HasChange (·.disksize) then { diskConfig with Size := d.Get (·.disksize) } else diskConfig

/-- Lines 243 to 265 of `resourceOvcMachineUpdate`: the boot disk block and the final `Read`. -/
def updateDiskBlock (d : ResourceData) (client : Client) (tr : List Call) : Outcome :=
  if d.HasChange (·.iops) || d.HasChange (·.disksize) then
    match GetBootDiskID client d.Id tr with
    | (.error err, tr1) => { err := some err, d := d, trace := tr1 }
    | (.ok bootDiskID, tr1) =>
      let diskConfig := updateDiskConfig d bootDiskID
      match client.DisksUpdate tr1 diskConfig with
      | some err => { err := some err, d := d, trace := tr1 ++ [Call.DisksUpdate diskConfig] }
      | none => resourceOvcMachineRead d client (tr1 ++ [Call.DisksUpdate diskConfig])
  else
    resourceOvcMachineRead d client tr

/-- Lines 234 to 265 of `resourceOvcMachineUpdate`: the resize block, then the rest. -/
def updateResizeBlock (d : ResourceData) (client : Client) (tr : List Call) : Outcome :=
  if d.HasChange (·.memory) || d.HasChange (·.vcpus) then
    match client.MachinesResize tr (updateConfigResize d) with
    | .error err =>
      { err := some err, d := d, trace := tr ++ [Call.MachinesResize (updateConfigResize d)] }
    | .ok _ => updateDiskBlock d client (tr ++ [Call.MachinesResize (updateConfigResize d)])
  else
    updateDiskBlock d client tr

/-- `resourceOvcMachineUpdate` (lines 218 to 266).  The call of
`Machines.Update` sits inside the `description` block, as in the source. -/
def resourceOvcMachineUpdate (d : ResourceData) (client : Client) (tr : List Call) : Outcome :=
  if d.HasChange (·.description) then
    match client.MachinesUpdate tr (updateConfigMeta d) with
    | .error err =>
      { err := some err, d := d, trace := tr ++ [Call.MachinesUpdate (updateConfigMeta d)] }
    | .ok _ => updateResizeBlock d client (tr ++ [Call.MachinesUpdate (updateConfigMeta d)])
  else
    updateResizeBlock d client tr

/-- `resourceOvcMachineDelete` (lines 268 to 275). -/
def resourceOvcMachineDelete (d : ResourceData) (client : Client) (tr : List Call) : Outcome :=
  let machineConfig : MachineConfig := { MachineID := d.Id, Permanently := true }
  { err := client.MachinesDelete tr machineConfig
    d := d
    trace := tr ++ [Call.MachinesDelete machineConfig] }

/-! ## The schema table and the host's sequencing of validation, planning and callbacks -/

/-- The fields of `schema.Schema` the table of lines 30 to 137 uses, besides `Type` and `Elem`. -/
structure Schema where
  Required : Bool := false
  Optional : Bool := false
  Computed : Bool := false
  ConflictsWith : List String := []
deriving DecidableEq, Repr

/-- The `Schema` map of `resourceOvcMachine` (lines 30 to 137), in source order. -/
def resourceOvcMachineSchema : List (String × Schema) :=
  [ ("cloudspace_id", { Required := true }),
    ("name", { Required := true }),
    ("description", { Optional := true }),
    ("size_id", { Optional := true, ConflictsWith := ["memory", "vcpus"], Computed := true }),
    ("memory", { Optional := true, ConflictsWith := ["size_id"], Computed := true }),
    ("vcpus", { Optional := true, ConflictsWith := ["size_id"], Computed := true }),
    ("image_id", { Required := true }),
    ("disksize", { Required := true }),
    ("iops", { Optional := true }),
    ("status", { Computed := true }),
    ("update_time", { Computed := true }),
    ("hostname", { Computed := true }),
    ("creationtime", { Computed := true }),
    ("username", { Computed := true }),
    ("password", { Computed := true }),
    ("ip_address", { Computed := true }),
    ("disks", { Computed := true }),
    ("userdata", { Optional := true }) ]

/-- The configuration a user writes for the resource: the `Required`
attributes carry a value, an `Optional` attribute is `none` when it is not
set. -/
structure DesiredConfig where
  cloudspace_id : Int
  name : String
  description : Option String := none
  size_id : Option Int := none
  memory : Option Int := none
  vcpus : Option Int := none
  image_id : Int
  disksize : Int
  iops : Option Int := none
  userdata : Option String := none
deriving DecidableEq, Repr

/-- Whether the configuration sets the attribute `key`. -/
def DesiredConfig.isSet (cfg : DesiredConfig) (key : String) : Bool :=
  if key = "cloudspace_id" then true
  else if key = "name" then true
  else if key = "description" then cfg.description.isSome
  else if key = "size_id" then cfg.size_id.isSome
  else if key = "memory" then cfg.memory.isSome
  else if key = "vcpus" then cfg.vcpus.isSome
  else if key = "image_id" then true
  else if key = "disksize" then true
  else if key = "iops" then cfg.iops.isSome
  else if key = "userdata" then cfg.userdata.isSome
  else false

/-- The host's check of one `ConflictsWith` list: an attribute that is set
conflicts with the first attribute of its list that is set as well. -/
def validateConflictingAttributes (k : String) (schema : Schema) (cfg : DesiredConfig) : Option Err :=
  match schema.ConflictsWith.find? cfg.isSet with
  | some conflicting_key => some (k ++ ": conflicts with " ++ conflicting_key)
  | none => none

/-- The host's validation of a configuration against a schema table, as far
as `ConflictsWith` goes: the first conflict among the attributes that are
set, in table order. -/
def schemaValidate (table : List (String × Schema)) (cfg : DesiredConfig) : Option Err :=
  match table with
  | [] => none
  | (k, schema) :: rest =>
    if cfg.isSet k then
      match validateConflictingAttributes k schema cfg with
      | some err => some err
      | none => schemaValidate rest cfg
    else
      schemaValidate rest cfg

/-- The planned attribute values for a configuration over a prior state: a
set attribute takes the configured value; an unset `Optional` attribute reads
as its zero value, unless it is `Computed` too, in which case the state value
stays; a `Computed`-only attribute keeps the state value. -/
def plan (state : Attrs) (cfg : DesiredConfig) : Attrs :=
  { state with
    cloudspace_id := cfg.cloudspace_id
    name := cfg.name
    description := cfg.description.getD ""
    size_id := cfg.size_id.getD state.size_id
    memory := cfg.memory.getD state.memory
    vcpus := cfg.vcpus.getD state.vcpus
    image_id := cfg.image_id
    disksize := cfg.disksize
    iops := cfg.iops.getD 0
    userdata := cfg.userdata.getD "" }

/-- Planning an update, then applying it: the host evaluates `CustomizeDiff`
on the planned diff and calls the `Update` callback only when the hook
returned no error. -/
def applyUpdate (d : ResourceData) (client : Client) (tr : List Call) : Outcome :=
  match CustomizeDiff d.toDiff with
  | some err => { err := some err, d := d, trace := tr }
  | none => resourceOvcMachineUpdate d client tr

/-- A create pass for a configuration: schema validation, the `CustomizeDiff`
hook on the planned diff (the identifier is still empty), then the `Create`
callback. -/
def reconcileCreate (cfg : DesiredConfig) (client : Client) (tr : List Call) : Outcome :=
  let d := ResourceData.fresh "" {} (plan {} cfg)
  match schemaValidate resourceOvcMachineSchema cfg with
  | some err => { err := some err, d := d, trace := tr }
  | none =>
    match CustomizeDiff d.toDiff with
    | some err => { err := some err, d := d, trace := tr }
    | none => resourceOvcMachineCreate d client tr

/-- An update pass for a configuration over the stored state of an existing
resource: schema validation, then planning and applying. -/
def reconcileUpdate (id : String) (state : Attrs) (cfg : DesiredConfig) (client : Client)
    (tr : List Call) : Outcome :=
  let d := ResourceData.fresh id state (plan state cfg)
  match schemaValidate resourceOvcMachineSchema cfg with
  | some err => { err := some err, d := d, trace := tr }
  | none => applyUpdate d client tr

/-! ## Vocabulary for statements about call traces -/

/-- The calls a pass appended to the trace `tr` it started from. -/
def Outcome.calls (out : Outcome) (tr : List Call) : List Call :=
  out.trace.drop tr.length

/-- The operation group of a call, numbered in the order of the groups:
0 for the metadata update, 1 for the resize, 2 for the disk update.  `Get`,
`Create` and `Delete` belong to no group. -/
def Call.group : Call → Option Nat
  | .MachinesUpdate _ => some 0
  | .MachinesResize _ => some 1
  | .DisksUpdate _ => some 2
  | _ => none

/-- Whether the client answers `call` with an error when it is issued after the calls `hist`. -/
def Client.fails (client : Client) (hist : List Call) : Call → Bool
  | .MachinesGet id =>
    match client.MachinesGet hist id with
    | .ok _ => false
    | .error _ => true
  | .MachinesCreate cfg =>
    match client.MachinesCreate hist cfg with
    | .ok _ => false
    | .error _ => true
  | .MachinesUpdate cfg =>
    match client.MachinesUpdate hist cfg with
    | .ok _ => false
    | .error _ => true
  | .MachinesResize cfg =>
    match client.MachinesResize hist cfg with
    | .ok _ => false
    | .error _ => true
  | .MachinesDelete cfg => (client.MachinesDelete hist cfg).isSome
  | .DisksUpdate cfg => (client.DisksUpdate hist cfg).isSome

/-- Replays `calls`, issued one after the other after the calls `hist`: a
group call that the client answers with an error has no call after it. -/
def failingGroupCallIsLast (client : Client) : List Call → List Call → Bool
  | _, [] => true
  | hist, call :: rest =>
    (!(call.group.isSome && client.fails hist call) || rest.isEmpty) &&
      failingGroupCallIsLast client (hist ++ [call]) rest

/-- The metadata call of an update pass, when the pass issues one. -/
def metaCalls (d : ResourceData) : List Call :=
  if d.HasChange (·.description) then [Call.MachinesUpdate (updateConfigMeta d)] else []

/-- The resize call of an update pass, when the pass issues one. -/
def resizeCalls (d : ResourceData) : List Call :=
  if d.HasChange (·.memory) || d.HasChange (·.vcpus) then
    [Call.MachinesResize (updateConfigResize d)]
  else []

/-! ## Sample data -/

/-- A machine with a data disk and a boot disk. -/
def sampleMachine : MachineInfo :=
  { Cloudspaceid := 3, Hostname := "web1", Name := "web1", Description := "front",
    Sizeid := 2, Memory := 1024, Vcpus := 2,
    Accounts := [{ Login := "root", Password := "s3cret" }],
    Interfaces := [{ IPAddress := "10.0.0.5" }],
    Disks := [{ Status := "ASSIGNED", SizeMax := 50, Name := "data", Descr := "data disk",
                Type_ := "D", ID := 41 },
              { Status := "ASSIGNED", SizeMax := 20, Name := "boot", Descr := "boot disk",
                Type_ := "B", ID := 42 }] }

/-- The same machine without its boot disk, accounts and interfaces. -/
def bareMachine : MachineInfo :=
  { sampleMachine with
    Accounts := [], Interfaces := [],
    Disks := [{ Status := "ASSIGNED", SizeMax := 50, Name := "data", Descr := "data disk",
                Type_ := "D", ID := 41 }] }

/-- A client whose every call succeeds and whose `Get` answers `mi`. -/
def okClient (mi : MachineInfo) : Client :=
  { MachinesGet := fun _ _ => .ok mi
    MachinesCreate := fun _ _ => .ok "vm-1"
    MachinesUpdate := fun _ _ => .ok "true"
    MachinesResize := fun _ _ => .ok "true"
    MachinesDelete := fun _ _ => none
    DisksUpdate := fun _ _ => none }

/-- The stored attributes of an existing machine. -/
def sampleState : Attrs :=
  { cloudspace_id := 3, name := "web1", description := "front", size_id := 2, memory := 1024,
    vcpus := 2, image_id := 7, disksize := 20, iops := 500, username := "admin",
    password := "old", ip_address := "10.0.0.9" }

/-- The configuration of the create scenario: sizing by memory and vcpus, iops set. -/
def sampleConfig : DesiredConfig :=
  { cloudspace_id := 3, name := "web1", image_id := 7, disksize := 20, memory := some 1024,
    vcpus := some 2, iops := some 500 }

/-- A configuration that sets neither `size_id` nor `memory` nor `vcpus`. -/
def unsizedConfig : DesiredConfig :=
  { cloudspace_id := 3, name := "web1", image_id := 7, disksize := 20 }

/-- A configuration that sets `size_id`, `memory` and `vcpus` together. -/
def conflictingConfig : DesiredConfig :=
  { cloudspace_id := 3, name := "web1", image_id := 7, disksize := 20, size_id := some 2,
    memory := some 1024, vcpus := some 2 }

/-- The stored state as the planned values: nothing changed. -/
def unchangedData : ResourceData :=
  ResourceData.fresh "vm-1" sampleState sampleState

/-- An update that changes only `name`. -/
def renamedData : ResourceData :=
  ResourceData.fresh "vm-1" sampleState { sampleState with name := "web2" }

/-- An update that changes only `description`. -/
def redescribedData : ResourceData :=
  ResourceData.fresh "vm-1" sampleState { sampleState with description := "back" }

/-- An update that changes `vcpus` and `disksize` together and nothing else. -/
def resizedData : ResourceData :=
  ResourceData.fresh "vm-1" sampleState { sampleState with vcpus := 4, disksize := 40 }

/-- A client whose `Machines.Resize` fails with `e`, every other call succeeding. -/
def resizeFailingClient (mi : MachineInfo) (e : Err) : Client :=
  { okClient mi with MachinesResize := fun _ _ => .error e }

/-- A client whose `Machines.Get` fails with `e`, every other call succeeding. -/
def getFailingClient (e : Err) : Client :=
  { okClient sampleMachine with MachinesGet := fun _ _ => .error e }

/-- A client whose `Machines.Create` fails with `e`, every other call succeeding. -/
def createFailingClient (e : Err) : Client :=
  { okClient sampleMachine with MachinesCreate := fun _ _ => .error e }

/-- A client whose `Disks.Update` fails with `e`, every other call succeeding. -/
def diskFailingClient (e : Err) : Client :=
  { okClient sampleMachine with DisksUpdate := fun _ _ => some e }

/-- The resource data of the create scenario. -/
def createData : ResourceData :=
  ResourceData.fresh "" {} (plan {} sampleConfig)

/-- The boot disk of the sample machine. -/
def sampleBootDisk : DiskInfo :=
  { Status := "ASSIGNED", SizeMax := 20, Name := "boot", Descr := "boot disk", Type_ := "B",
    ID := 42 }

/-! ## Theorems -/

/-- With `size_id` set together with `memory` or `vcpus`, validation against
the resource's schema table reports a conflict. -/
theorem schemaValidate_conflict (cfg : DesiredConfig) (hs : cfg.size_id.isSome = true)
    (hmv : cfg.memory.isSome = true ∨ cfg.vcpus.isSome = true) :
    (schemaValidate resourceOvcMachineSchema cfg).isSome = true := by
  rcases hmv with hm | hv
  · cases hd : cfg.description.isSome <;>
      simp [schemaValidate, resourceOvcMachineSchema, DesiredConfig.isSet,
        validateConflictingAttributes, List.find?, hs, hm, hd]
  · cases hd : cfg.description.isSome <;> cases hm : cfg.memory.isSome <;>
      simp [schemaValidate, resourceOvcMachineSchema, DesiredConfig.isSet,
        validateConflictingAttributes, List.find?, hs, hm, hv, hd]

/-- Without `size_id`, the schema table has no conflict to report. -/
theorem schemaValidate_no_size (cfg : DesiredConfig) (hs : cfg.size_id = none) :
    schemaValidate resourceOvcMachineSchema cfg = none := by
  cases hd : cfg.description.isSome <;> cases hm : cfg.memory.isSome <;>
    cases hv : cfg.vcpus.isSome <;> cases hi : cfg.iops.isSome <;>
    cases hu : cfg.userdata.isSome <;>
      simp [schemaValidate, resourceOvcMachineSchema, DesiredConfig.isSet,
        validateConflictingAttributes, List.find?, hs, hm, hv, hd, hi, hu]

/-- The hook `CustomizeDiff` never fails on an empty identifier. -/
theorem CustomizeDiff_create (diff : ResourceDiff) (h : diff.Id = "") :
    CustomizeDiff diff = none := by
  simp [CustomizeDiff, h]

/-- C1. Immutability guard: for an existing resource (non-empty identifier)
whose planned `image_id` differs from the stored one, the update pass returns
the error "Cannot change Image ID on existing machine", leaves the resource
data as it was and appends nothing to the call trace (no Get, metadata update,
resize or disk update); with an empty identifier the guard returns no error. -/
theorem C1_immutability_guard (d : ResourceData) (client : Client) (tr : List Call) :
    (d.Id ≠ "" → d.old.image_id ≠ d.new.image_id →
        applyUpdate d client tr =
          { err := some "Cannot change Image ID on existing machine", d := d, trace := tr }) ∧
    (d.Id = "" → CustomizeDiff d.toDiff = none) := by
  refine ⟨fun hid himg => ?_, fun hid => ?_⟩
  · have hid2 : ¬ d.id = "" := hid
    simp [applyUpdate, CustomizeDiff, ResourceData.toDiff, ResourceDiff.Id,
      ResourceDiff.HasChange, hid2, himg]
  · have hid2 : d.id = "" := hid
    simp [CustomizeDiff, ResourceData.toDiff, ResourceDiff.Id, hid2]

/-- C1 at an existing machine "vm-1" whose image goes from 7 to 8, and at a
resource that is being created. -/
theorem C1_immutability_guard_witness :
    applyUpdate (ResourceData.fresh "vm-1" sampleState { sampleState with image_id := 8 })
        (okClient sampleMachine) [] =
      { err := some "Cannot change Image ID on existing machine",
        d := ResourceData.fresh "vm-1" sampleState { sampleState with image_id := 8 },
        trace := [] } ∧
    CustomizeDiff (ResourceData.fresh "" {} (plan {} sampleConfig)).toDiff = none :=
  ⟨(C1_immutability_guard
      (ResourceData.fresh "vm-1" sampleState { sampleState with image_id := 8 })
      (okClient sampleMachine) []).1 (by decide) (by decide),
   (C1_immutability_guard (ResourceData.fresh "" {} (plan {} sampleConfig))
      (okClient sampleMachine) []).2 (by decide)⟩

/-- `resourceOvcMachineRead` issues exactly one call, the `Get` of the identifier. -/
theorem Read_trace (d : ResourceData) (client : Client) (tr : List Call) :
    (resourceOvcMachineRead d client tr).trace = tr ++ [Call.MachinesGet d.Id] := by
  unfold resourceOvcMachineRead
  split <;> rfl

/-- `resourceOvcMachineRead` returns no error. -/
theorem Read_err (d : ResourceData) (client : Client) (tr : List Call) :
    (resourceOvcMachineRead d client tr).err = none := by
  unfold resourceOvcMachineRead
  split <;> rfl

/-- `GetBootDiskID` issues exactly one call, the `Get` of the identifier. -/
theorem GetBootDiskID_trace (client : Client) (id : String) (tr : List Call) :
    (GetBootDiskID client id tr).2 = tr ++ [Call.MachinesGet id] := by
  unfold GetBootDiskID
  split
  · rfl
  · split <;> rfl

/-- The first call of `resourceOvcMachineCreate` is `Machines.Create` with the
configuration read from the resource data. -/
theorem Create_first_call (d : ResourceData) (client : Client) (tr : List Call) :
    tr ++ [Call.MachinesCreate (createConfig d)] <+: (resourceOvcMachineCreate d client tr).trace := by
  unfold resourceOvcMachineCreate
  simp only
  split
  · exact List.prefix_refl _
  · have hb := GetBootDiskID_trace client ‹String› (tr ++ [Call.MachinesCreate (createConfig d)])
    split
    · rename_i h
      rw [h] at hb
      simp only at hb
      simp only [hb]
      exact List.prefix_append _ _
    · rename_i h
      rw [h] at hb
      simp only at hb
      split
      · simp [hb]
      · rw [Read_trace]
        simp [hb]

/-- C2, the counterexample: a configuration that sets none of `size_id`,
`memory`, `vcpus` is not rejected. The create pass issues `Machines.Create`
with all three at zero, goes on to the boot disk and returns no error; the
update pass over the stored state issues its calls as well. -/
theorem C2_neither_set_counterexample :
    unsizedConfig.size_id = none ∧ unsizedConfig.memory = none ∧ unsizedConfig.vcpus = none ∧
    reconcileCreate unsizedConfig (okClient sampleMachine) [] =
      { err := none,
        d := readAttrs ((ResourceData.fresh "" {} (plan {} unsizedConfig)).SetId "vm-1") sampleMachine,
        trace :=
          [Call.MachinesCreate
             { CloudspaceID := 3, Name := "web1", ImageID := 7, Disksize := 20, SizeID := 0,
               Memory := 0, Vcpus := 0 },
           Call.MachinesGet "vm-1",
           Call.DisksUpdate { DiskID := 42, IOPS := 0 },
           Call.MachinesGet "vm-1"] } ∧
    (reconcileUpdate "vm-1" sampleState { unsizedConfig with disksize := 40 }
        (okClient sampleMachine) []).err = none ∧
    (reconcileUpdate "vm-1" sampleState { unsizedConfig with disksize := 40 }
        (okClient sampleMachine) []).trace ≠ [] := by
  refine ⟨rfl, rfl, rfl, ?_, ?_, ?_⟩
  · decide
  · decide
  · decide

/-- C2, amended. Sizing validation: a configuration that sets `size_id`
together with `memory` or `vcpus` is rejected by the schema's `ConflictsWith`
check, and the create pass and the update pass return that error without any
remote call; a configuration that sets none of the three passes validation,
and its create pass is the `Create` callback, whose first call is
`Machines.Create` with `SizeID`, `Memory` and `Vcpus` all zero. -/
theorem C2_sizing_validation (cfg : DesiredConfig) (client : Client) (tr : List Call) :
    (cfg.size_id.isSome = true → cfg.memory.isSome = true ∨ cfg.vcpus.isSome = true →
      ∃ err, schemaValidate resourceOvcMachineSchema cfg = some err ∧
        (reconcileCreate cfg client tr).err = some err ∧
        (reconcileCreate cfg client tr).trace = tr ∧
        ∀ (id : String) (state : Attrs),
          (reconcileUpdate id state cfg client tr).err = some err ∧
          (reconcileUpdate id state cfg client tr).trace = tr) ∧
    (cfg.size_id = none → cfg.memory = none → cfg.vcpus = none →
      schemaValidate resourceOvcMachineSchema cfg = none ∧
      reconcileCreate cfg client tr =
        resourceOvcMachineCreate (ResourceData.fresh "" {} (plan {} cfg)) client tr ∧
      (createConfig (ResourceData.fresh "" {} (plan {} cfg))).SizeID = 0 ∧
      (createConfig (ResourceData.fresh "" {} (plan {} cfg))).Memory = 0 ∧
      (createConfig (ResourceData.fresh "" {} (plan {} cfg))).Vcpus = 0 ∧
      tr ++ [Call.MachinesCreate (createConfig (ResourceData.fresh "" {} (plan {} cfg)))] <+:
        (reconcileCreate cfg client tr).trace) := by
  refine ⟨fun hs hmv => ?_, fun hs hm hv => ?_⟩
  · have hv := schemaValidate_conflict cfg hs hmv
    obtain ⟨err, herr⟩ := Option.isSome_iff_exists.mp hv
    refine ⟨err, herr, ?_, ?_, fun id state => ⟨?_, ?_⟩⟩ <;>
      simp [reconcileCreate, reconcileUpdate, herr]
  · have hv0 := schemaValidate_no_size cfg hs
    have hg : CustomizeDiff (ResourceData.fresh "" {} (plan {} cfg)).toDiff = none :=
      CustomizeDiff_create _ rfl
    have hrc : reconcileCreate cfg client tr =
        resourceOvcMachineCreate (ResourceData.fresh "" {} (plan {} cfg)) client tr := by
      simp [reconcileCreate, hv0, hg]
    refine ⟨hv0, hrc, ?_, ?_, ?_, ?_⟩
    · simp [createConfig, ResourceData.Get, ResourceData.fresh, plan, hs]
    · simp [createConfig, ResourceData.Get, ResourceData.fresh, plan, hm]
    · simp [createConfig, ResourceData.Get, ResourceData.fresh, plan, hv]
    · rw [hrc]
      exact Create_first_call _ _ _

/-- C2 at a configuration with `size_id`, `memory` and `vcpus` all set, and at
one with none of them set. -/
theorem C2_sizing_validation_witness :
    (∃ err, schemaValidate resourceOvcMachineSchema conflictingConfig = some err ∧
        (reconcileCreate conflictingConfig (okClient sampleMachine) []).err = some err ∧
        (reconcileCreate conflictingConfig (okClient sampleMachine) []).trace = [] ∧
        ∀ (id : String) (state : Attrs),
          (reconcileUpdate id state conflictingConfig (okClient sampleMachine) []).err = some err ∧
          (reconcileUpdate id state conflictingConfig (okClient sampleMachine) []).trace = []) ∧
    (schemaValidate resourceOvcMachineSchema unsizedConfig = none ∧
      reconcileCreate unsizedConfig (okClient sampleMachine) [] =
        resourceOvcMachineCreate (ResourceData.fresh "" {} (plan {} unsizedConfig))
          (okClient sampleMachine) [] ∧
      (createConfig (ResourceData.fresh "" {} (plan {} unsizedConfig))).SizeID = 0 ∧
      (createConfig (ResourceData.fresh "" {} (plan {} unsizedConfig))).Memory = 0 ∧
      (createConfig (ResourceData.fresh "" {} (plan {} unsizedConfig))).Vcpus = 0 ∧
      [] ++ [Call.MachinesCreate (createConfig (ResourceData.fresh "" {} (plan {} unsizedConfig)))] <+:
        (reconcileCreate unsizedConfig (okClient sampleMachine) []).trace) :=
  ⟨(C2_sizing_validation conflictingConfig (okClient sampleMachine) []).1 (by decide)
      (Or.inl (by decide)),
   (C2_sizing_validation unsizedConfig (okClient sampleMachine) []).2 rfl rfl rfl⟩

/-- The calls of the boot disk block: group calls are disk updates, issued
only when `iops` or `disksize` changed, at most one, and a failing one is last. -/
theorem updateDiskBlock_run (d : ResourceData) (client : Client) (tr : List Call) :
    ∃ new, (updateDiskBlock d client tr).trace = tr ++ new ∧
      (∀ c ∈ new, ∀ r, c.group = some r →
        r = 2 ∧ (d.HasChange (·.iops) = true ∨ d.HasChange (·.disksize) = true)) ∧
      (new.filterMap Call.group).Pairwise (· < ·) ∧
      failingGroupCallIsLast client tr new = true := by
  unfold updateDiskBlock
  split
  · rename_i hchg
    have hchg2 : d.HasChange (·.iops) = true ∨ d.HasChange (·.disksize) = true := by
      simpa using hchg
    have hb := GetBootDiskID_trace client d.Id tr
    split
    · rename_i h
      rw [h] at hb
      simp only at hb
      exact ⟨[Call.MachinesGet d.Id], by simp [hb], by simp [Call.group], by simp [Call.group],
        by simp [failingGroupCallIsLast, Call.group]⟩
    · rename_i bootDiskID tr1 h
      rw [h] at hb
      simp only at hb
      subst hb
      dsimp only
      split
      · rename_i err hu
        refine ⟨[Call.MachinesGet d.Id, Call.DisksUpdate (updateDiskConfig d bootDiskID)],
          by simp, ?_, by simp [Call.group], by simp [failingGroupCallIsLast, Call.group]⟩
        intro c hc r hr
        simp at hc
        rcases hc with rfl | rfl
        · simp [Call.group] at hr
        · simp [Call.group] at hr
          exact ⟨hr.symm, hchg2⟩
      · rename_i hu
        refine ⟨[Call.MachinesGet d.Id, Call.DisksUpdate (updateDiskConfig d bootDiskID),
          Call.MachinesGet d.Id], by simp [Read_trace], ?_, by simp [Call.group],
          by simp [failingGroupCallIsLast, Call.group, Client.fails, hu]⟩
        intro c hc r hr
        simp at hc
        rcases hc with rfl | rfl | rfl
        · simp [Call.group] at hr
        · simp [Call.group] at hr
          exact ⟨hr.symm, hchg2⟩
        · simp [Call.group] at hr
  · exact ⟨[Call.MachinesGet d.Id], by simp [Read_trace], by simp [Call.group],
      by simp [Call.group], by simp [failingGroupCallIsLast, Call.group]⟩

/-- The calls of the resize block and what follows it. -/
theorem updateResizeBlock_run (d : ResourceData) (client : Client) (tr : List Call) :
    ∃ new, (updateResizeBlock d client tr).trace = tr ++ new ∧
      (∀ c ∈ new, ∀ r, c.group = some r →
        (r = 1 ∧ (d.HasChange (·.memory) = true ∨ d.HasChange (·.vcpus) = true)) ∨
        (r = 2 ∧ (d.HasChange (·.iops) = true ∨ d.HasChange (·.disksize) = true))) ∧
      (new.filterMap Call.group).Pairwise (· < ·) ∧
      failingGroupCallIsLast client tr new = true := by
  unfold updateResizeBlock
  split
  · rename_i hchg
    have hchg2 : d.HasChange (·.memory) = true ∨ d.HasChange (·.vcpus) = true := by
      simpa using hchg
    split
    · rename_i err h
      refine ⟨[Call.MachinesResize (updateConfigResize d)], rfl, ?_, by simp [Call.group],
        by simp [failingGroupCallIsLast]⟩
      intro c hc r hr
      simp at hc
      subst hc
      simp [Call.group] at hr
      exact Or.inl ⟨hr.symm, hchg2⟩
    · rename_i v h
      obtain ⟨new, ht, hm, hp, hf⟩ :=
        updateDiskBlock_run d client (tr ++ [Call.MachinesResize (updateConfigResize d)])
      refine ⟨Call.MachinesResize (updateConfigResize d) :: new, by simp [ht], ?_, ?_, ?_⟩
      · intro c hc r hr
        rcases List.mem_cons.mp hc with rfl | hc
        · simp [Call.group] at hr
          exact Or.inl ⟨hr.symm, hchg2⟩
        · exact Or.inr (hm c hc r hr)
      · simp only [List.filterMap_cons, Call.group, List.pairwise_cons]
        refine ⟨fun r hr => ?_, hp⟩
        obtain ⟨c, hc, hcr⟩ := List.mem_filterMap.mp hr
        have := (hm c hc r hcr).1
        omega
      · simp [failingGroupCallIsLast, Client.fails, h, hf]
  · obtain ⟨new, ht, hm, hp, hf⟩ := updateDiskBlock_run d client tr
    exact ⟨new, ht, fun c hc r hr => Or.inr (hm c hc r hr), hp, hf⟩

/-- The calls of an update pass: every group call belongs to a group with a
changed field (for the metadata call, `description`), the groups appear in
the order metadata update, resize, disk update, each at most once, and a
failing group call is the last call. -/
theorem Update_run (d : ResourceData) (client : Client) (tr : List Call) :
    ∃ new, (resourceOvcMachineUpdate d client tr).trace = tr ++ new ∧
      (∀ c ∈ new, ∀ r, c.group = some r →
        (r = 0 ∧ d.HasChange (·.description) = true) ∨
        (r = 1 ∧ (d.HasChange (·.memory) = true ∨ d.HasChange (·.vcpus) = true)) ∨
        (r = 2 ∧ (d.HasChange (·.iops) = true ∨ d.HasChange (·.disksize) = true))) ∧
      (new.filterMap Call.group).Pairwise (· < ·) ∧
      failingGroupCallIsLast client tr new = true := by
  unfold resourceOvcMachineUpdate
  split
  · rename_i hchg
    split
    · rename_i err h
      refine ⟨[Call.MachinesUpdate (updateConfigMeta d)], rfl, ?_, by simp [Call.group],
        by simp [failingGroupCallIsLast]⟩
      intro c hc r hr
      simp at hc
      subst hc
      simp [Call.group] at hr
      exact Or.inl ⟨hr.symm, hchg⟩
    · rename_i v h
      obtain ⟨new, ht, hm, hp, hf⟩ :=
        updateResizeBlock_run d client (tr ++ [Call.MachinesUpdate (updateConfigMeta d)])
      refine ⟨Call.MachinesUpdate (updateConfigMeta d) :: new, by simp [ht], ?_, ?_, ?_⟩
      · intro c hc r hr
        rcases List.mem_cons.mp hc with rfl | hc
        · simp [Call.group] at hr
          exact Or.inl ⟨hr.symm, hchg⟩
        · exact Or.inr (hm c hc r hr)
      · simp only [List.filterMap_cons, Call.group, List.pairwise_cons]
        refine ⟨fun r hr => ?_, hp⟩
        obtain ⟨c, hc, hcr⟩ := List.mem_filterMap.mp hr
        rcases hm c hc r hcr with h1 | h1 <;> omega
      · simp [failingGroupCallIsLast, Client.fails, h, hf]
  · obtain ⟨new, ht, hm, hp, hf⟩ := updateResizeBlock_run d client tr
    exact ⟨new, ht, fun c hc r hr => Or.inr (hm c hc r hr), hp, hf⟩

/-- The trace of a pass is the trace it started from followed by its calls. -/
theorem calls_of_trace (out : Outcome) (tr new : List Call) (h : out.trace = tr ++ new) :
    out.calls tr = new := by
  simp [Outcome.calls, h]

/-- The loop of `GetBootDiskID` returns the identifier of the only disk of type "B". -/
theorem bootDiskLoop_of_filter (l : List DiskInfo) (b : DiskInfo)
    (h : l.filter (fun x => decide (x.Type_ = "B")) = [b]) :
    bootDiskLoop l = some b.ID := by
  induction l with
  | nil => simp at h
  | cons disk rest ih =>
    by_cases hB : disk.Type_ = "B"
    · simp [List.filter_cons, hB] at h
      obtain ⟨rfl, -⟩ := h
      simp [bootDiskLoop, hB]
    · simp [List.filter_cons, hB] at h
      simp [bootDiskLoop, hB, ih h]

/-- C6. Boot disk resolution: when the fetched machine's disk list is any
ordering of a list `ds` that holds exactly one disk of type "B", the disk
`b`, then `GetBootDiskID` returns the identifier of `b` and no error,
whatever the number of disks and the position of `b`. -/
theorem C6_boot_disk_resolution (client : Client) (id : String) (tr : List Call)
    (mi : MachineInfo) (ds : List DiskInfo) (b : DiskInfo)
    (hget : client.MachinesGet tr id = .ok mi)
    (hperm : mi.Disks.Perm ds)
    (hone : ds.filter (fun x => decide (x.Type_ = "B")) = [b]) :
    GetBootDiskID client id tr = (.ok b.ID, tr ++ [Call.MachinesGet id]) := by
  have hf : mi.Disks.filter (fun x => decide (x.Type_ = "B")) = [b] := by
    have := hperm.filter (fun x => decide (x.Type_ = "B"))
    rw [hone] at this
    exact List.perm_singleton.mp this
  simp [GetBootDiskID, hget, bootDiskLoop_of_filter _ b hf]

/-- C6 at the sample machine, with its two disks listed in the other order. -/
theorem C6_boot_disk_resolution_witness :
    GetBootDiskID (okClient sampleMachine) "vm-1" [] = (.ok 42, [Call.MachinesGet "vm-1"]) :=
  C6_boot_disk_resolution (okClient sampleMachine) "vm-1" [] sampleMachine
    sampleMachine.Disks.reverse
    { Status := "ASSIGNED", SizeMax := 20, Name := "boot", Descr := "boot disk", Type_ := "B",
      ID := 42 }
    rfl (List.reverse_perm _).symm (by decide)

/-- The loop of `GetBootDiskID` finds nothing when no disk has type "B". -/
theorem bootDiskLoop_none (l : List DiskInfo) (h : ∀ x ∈ l, x.Type_ ≠ "B") :
    bootDiskLoop l = none := by
  induction l with
  | nil => rfl
  | cons disk rest ih =>
    have hd : disk.Type_ ≠ "B" := h disk (List.mem_cons_self _ _)
    simp [bootDiskLoop, hd, ih fun x hx => h x (List.mem_cons_of_mem _ hx)]

/-- When the metadata and resize calls, where issued, succeed, an update pass
reaches the boot disk block after exactly those calls. -/
theorem Update_reaches_diskBlock (d : ResourceData) (client : Client) (tr : List Call)
    (hU : d.HasChange (·.description) = true →
      ∃ v, client.MachinesUpdate tr (updateConfigMeta d) = .ok v)
    (hR : (d.HasChange (·.memory) || d.HasChange (·.vcpus)) = true →
      ∃ v, client.MachinesResize (tr ++ metaCalls d) (updateConfigResize d) = .ok v) :
    resourceOvcMachineUpdate d client tr =
      updateDiskBlock d client (tr ++ metaCalls d ++ resizeCalls d) := by
  unfold resourceOvcMachineUpdate updateResizeBlock
  cases hd : d.HasChange (·.description) <;>
    cases hr : (d.HasChange (·.memory) || d.HasChange (·.vcpus))
  · simp [metaCalls, resizeCalls, hd, hr]
  · obtain ⟨w, hw⟩ := hR hr
    simp only [metaCalls, hd, Bool.false_eq_true, if_false, List.append_nil] at hw
    simp [metaCalls, resizeCalls, hd, hr, hw]
  · obtain ⟨v, hv⟩ := hU hd
    simp [metaCalls, resizeCalls, hd, hr, hv]
  · obtain ⟨v, hv⟩ := hU hd
    obtain ⟨w, hw⟩ := hR hr
    simp only [metaCalls, hd, if_true] at hw
    simp [metaCalls, resizeCalls, hd, hr, hv, hw]

/-- The boot disk block when the machine fetched by the lookup has no boot disk. -/
theorem updateDiskBlock_no_boot_disk (d : ResourceData) (client : Client) (tr : List Call)
    (mi : MachineInfo)
    (hchg : (d.HasChange (·.iops) || d.HasChange (·.disksize)) = true)
    (hget : client.MachinesGet tr d.Id = .ok mi)
    (hloop : bootDiskLoop mi.Disks = none) :
    updateDiskBlock d client tr =
      { err := some (noBootDiskErr mi.Name), d := d, trace := tr ++ [Call.MachinesGet d.Id] } := by
  simp [updateDiskBlock, hchg, GetBootDiskID, hget, hloop]

/-- The boot disk block with a client that never returns a machine with a
boot disk: no disk update is issued, and the block fails when it needs the
boot disk. -/
theorem updateDiskBlock_without_boot_disk (d : ResourceData) (client : Client) (tr : List Call)
    (hall : ∀ t id mi, client.MachinesGet t id = .ok mi → bootDiskLoop mi.Disks = none) :
    ∃ new, (updateDiskBlock d client tr).trace = tr ++ new ∧
      (∀ cfg, Call.DisksUpdate cfg ∉ new) ∧
      ((d.HasChange (·.iops) || d.HasChange (·.disksize)) = true →
        (updateDiskBlock d client tr).err ≠ none) := by
  cases hchg : (d.HasChange (·.iops) || d.HasChange (·.disksize))
  · exact ⟨[Call.MachinesGet d.Id], by simp [updateDiskBlock, hchg, Read_trace], by simp,
      by simp⟩
  · cases hg : client.MachinesGet tr d.Id with
    | error e =>
      exact ⟨[Call.MachinesGet d.Id], by simp [updateDiskBlock, hchg, GetBootDiskID, hg],
        by simp, by simp [updateDiskBlock, hchg, GetBootDiskID, hg]⟩
    | ok mi =>
      have hl := hall tr d.Id mi hg
      exact ⟨[Call.MachinesGet d.Id], by simp [updateDiskBlock, hchg, GetBootDiskID, hg, hl],
        by simp, by simp [updateDiskBlock, hchg, GetBootDiskID, hg, hl]⟩

/-- An update pass with a client that never returns a machine with a boot
disk: no disk update is issued, and the pass fails when `iops` or `disksize`
changed. -/
theorem Update_without_boot_disk (d : ResourceData) (client : Client) (tr : List Call)
    (hall : ∀ t id mi, client.MachinesGet t id = .ok mi → bootDiskLoop mi.Disks = none) :
    ∃ new, (resourceOvcMachineUpdate d client tr).trace = tr ++ new ∧
      (∀ cfg, Call.DisksUpdate cfg ∉ new) ∧
      ((d.HasChange (·.iops) || d.HasChange (·.disksize)) = true →
        (resourceOvcMachineUpdate d client tr).err ≠ none) := by
  have hres : ∀ t, ∃ new, (updateResizeBlock d client t).trace = t ++ new ∧
      (∀ cfg, Call.DisksUpdate cfg ∉ new) ∧
      ((d.HasChange (·.iops) || d.HasChange (·.disksize)) = true →
        (updateResizeBlock d client t).err ≠ none) := by
    intro t
    unfold updateResizeBlock
    split
    · split
      · exact ⟨[Call.MachinesResize (updateConfigResize d)], rfl, by simp, by simp⟩
      · obtain ⟨new, ht, hnd, herr⟩ := updateDiskBlock_without_boot_disk d client
          (t ++ [Call.MachinesResize (updateConfigResize d)]) hall
        refine ⟨Call.MachinesResize (updateConfigResize d) :: new, by simp [ht], ?_, herr⟩
        intro cfg hmem
        rcases List.mem_cons.mp hmem with h | h
        · cases h
        · exact hnd cfg h
    · exact updateDiskBlock_without_boot_disk d client t hall
  unfold resourceOvcMachineUpdate
  split
  · split
    · exact ⟨[Call.MachinesUpdate (updateConfigMeta d)], rfl, by simp, by simp⟩
    · obtain ⟨new, ht, hnd, herr⟩ := hres (tr ++ [Call.MachinesUpdate (updateConfigMeta d)])
      refine ⟨Call.MachinesUpdate (updateConfigMeta d) :: new, by simp [ht], ?_, herr⟩
      intro cfg hmem
      rcases List.mem_cons.mp hmem with h | h
      · cases h
      · exact hnd cfg h
  · exact hres tr

/-- A create with a client that never returns a machine with a boot disk: no
disk update is issued and the create fails. -/
theorem Create_without_boot_disk (d : ResourceData) (client : Client) (tr : List Call)
    (hall : ∀ t id mi, client.MachinesGet t id = .ok mi → bootDiskLoop mi.Disks = none) :
    ∃ new, (resourceOvcMachineCreate d client tr).trace = tr ++ new ∧
      (∀ cfg, Call.DisksUpdate cfg ∉ new) ∧
      (resourceOvcMachineCreate d client tr).err ≠ none := by
  cases hc : client.MachinesCreate tr (createConfig d) with
  | error e =>
    exact ⟨[Call.MachinesCreate (createConfig d)], by simp [resourceOvcMachineCreate, hc],
      by simp, by simp [resourceOvcMachineCreate, hc]⟩
  | ok machineID =>
    cases hg : client.MachinesGet (tr ++ [Call.MachinesCreate (createConfig d)]) machineID with
    | error e =>
      exact ⟨[Call.MachinesCreate (createConfig d), Call.MachinesGet machineID],
        by simp [resourceOvcMachineCreate, hc, GetBootDiskID, hg], by simp,
        by simp [resourceOvcMachineCreate, hc, GetBootDiskID, hg]⟩
    | ok mi =>
      have hl := hall _ _ mi hg
      exact ⟨[Call.MachinesCreate (createConfig d), Call.MachinesGet machineID],
        by simp [resourceOvcMachineCreate, hc, GetBootDiskID, hg, hl], by simp,
        by simp [resourceOvcMachineCreate, hc, GetBootDiskID, hg, hl]⟩

/-- C7. No boot disk: when the fetched machine has no disk of type "B" (an
empty disk list included), `GetBootDiskID` returns the error "Machine <name>
has no boot disk"; a `Create` whose `Machines.Create` succeeded returns that
error after the lookup, and an `Update` in which `iops` or `disksize` changed
and whose metadata and resize calls, where issued, succeeded returns that
error after the lookup; in all three the trace ends with the lookup's `Get`,
so no `Disks.Update` is issued. With a client that never answers a `Get` with
a machine that has a boot disk, no `Update` and no `Create` ever issues a
`Disks.Update`, every `Create` returns an error, and so does every `Update`
in which `iops` or `disksize` changed. -/
theorem C7_no_boot_disk (client : Client) (mi : MachineInfo)
    (hno : ∀ x ∈ mi.Disks, x.Type_ ≠ "B") :
    (∀ (id : String) (tr : List Call), client.MachinesGet tr id = .ok mi →
      GetBootDiskID client id tr = (.error (noBootDiskErr mi.Name), tr ++ [Call.MachinesGet id])) ∧
    (∀ (d : ResourceData) (tr : List Call) (machineID : String),
      client.MachinesCreate tr (createConfig d) = .ok machineID →
      client.MachinesGet (tr ++ [Call.MachinesCreate (createConfig d)]) machineID = .ok mi →
      resourceOvcMachineCreate d client tr =
        { err := some (noBootDiskErr mi.Name), d := d.SetId machineID,
          trace := tr ++ [Call.MachinesCreate (createConfig d), Call.MachinesGet machineID] }) ∧
    (∀ (d : ResourceData) (tr : List Call),
      d.HasChange (·.iops) = true ∨ d.HasChange (·.disksize) = true →
      (d.HasChange (·.description) = true →
        ∃ v, client.MachinesUpdate tr (updateConfigMeta d) = .ok v) →
      (d.HasChange (·.memory) = true ∨ d.HasChange (·.vcpus) = true →
        ∃ v, client.MachinesResize (tr ++ metaCalls d) (updateConfigResize d) = .ok v) →
      client.MachinesGet (tr ++ metaCalls d ++ resizeCalls d) d.Id = .ok mi →
      resourceOvcMachineUpdate d client tr =
        { err := some (noBootDiskErr mi.Name), d := d,
          trace := tr ++ metaCalls d ++ resizeCalls d ++ [Call.MachinesGet d.Id] } ∧
      ∀ cfg, Call.DisksUpdate cfg ∉ metaCalls d ++ resizeCalls d ++ [Call.MachinesGet d.Id]) ∧
    ((∀ t id mi, client.MachinesGet t id = .ok mi → ∀ x ∈ mi.Disks, x.Type_ ≠ "B") →
      ∀ (d : ResourceData) (tr : List Call),
        (∀ cfg, Call.DisksUpdate cfg ∉ (resourceOvcMachineUpdate d client tr).calls tr) ∧
        (d.HasChange (·.iops) = true ∨ d.HasChange (·.disksize) = true →
          (resourceOvcMachineUpdate d client tr).err ≠ none) ∧
        (∀ cfg, Call.DisksUpdate cfg ∉ (resourceOvcMachineCreate d client tr).calls tr) ∧
        (resourceOvcMachineCreate d client tr).err ≠ none) := by
  have hloop := bootDiskLoop_none mi.Disks hno
  refine ⟨fun id tr hget => ?_, fun d tr machineID hc hget => ?_, fun d tr hchg hU hR hget => ?_,
    fun hall d tr => ?_⟩
  rotate_right
  · have hall2 : ∀ t id mi, client.MachinesGet t id = .ok mi → bootDiskLoop mi.Disks = none :=
      fun t id mi h => bootDiskLoop_none _ (hall t id mi h)
    obtain ⟨new, ht, hnd, herr⟩ := Update_without_boot_disk d client tr hall2
    obtain ⟨new2, ht2, hnd2, herr2⟩ := Create_without_boot_disk d client tr hall2
    rw [calls_of_trace _ tr new ht, calls_of_trace _ tr new2 ht2]
    exact ⟨hnd, fun h => herr (by simpa using h), hnd2, herr2⟩
  · simp [GetBootDiskID, hget, hloop]
  · simp [resourceOvcMachineCreate, hc, GetBootDiskID, hget, hloop]
  · have hchg2 : (d.HasChange (·.iops) || d.HasChange (·.disksize)) = true := by
      simpa using hchg
    refine ⟨?_, ?_⟩
    · rw [Update_reaches_diskBlock d client tr hU (fun h => hR (by simpa using h))]
      exact updateDiskBlock_no_boot_disk d client _ mi hchg2 hget hloop
    · intro cfg hmem
      simp only [metaCalls, resizeCalls] at hmem
      split at hmem <;> split at hmem <;> simp at hmem

/-- C7 at a machine whose only disk is a data disk: the lookup, a create and
an update that changes `vcpus` and `disksize`. -/
theorem C7_no_boot_disk_witness :
    GetBootDiskID (okClient bareMachine) "vm-1" [] =
      (.error "Machine web1 has no boot disk", [Call.MachinesGet "vm-1"]) ∧
    (resourceOvcMachineCreate (ResourceData.fresh "" {} (plan {} sampleConfig))
        (okClient bareMachine) []).err = some "Machine web1 has no boot disk" ∧
    (resourceOvcMachineUpdate resizedData (okClient bareMachine) []).err =
      some "Machine web1 has no boot disk" ∧
    (∀ cfg, Call.DisksUpdate cfg ∉
      (resourceOvcMachineUpdate resizedData (okClient bareMachine) []).calls []) :=
  ⟨(C7_no_boot_disk (okClient bareMachine) bareMachine (by decide)).1 "vm-1" [] rfl,
   congrArg Outcome.err
    ((C7_no_boot_disk (okClient bareMachine) bareMachine (by decide)).2.1
      (ResourceData.fresh "" {} (plan {} sampleConfig)) [] "vm-1" rfl rfl),
   congrArg Outcome.err
    ((C7_no_boot_disk (okClient bareMachine) bareMachine (by decide)).2.2.1
      resizedData [] (Or.inr (by decide)) (fun _ => ⟨"true", rfl⟩) (fun _ => ⟨"true", rfl⟩)
      rfl).1,
   ((C7_no_boot_disk (okClient bareMachine) bareMachine (by decide)).2.2.2
      (fun _ _ mi h => by cases h; decide) resizedData []).1⟩

/-- C9. Exists never surfaces an error: `resourceOvcMachineExists` returns a
nil error; it returns `true` exactly when the `Get` of the identifier
succeeds and `false` for any `Get` error; it leaves the resource data
(identifier and attributes) as they were and issues that one `Get`. -/
theorem C9_exists_never_errors (d : ResourceData) (client : Client) (tr : List Call) :
    (resourceOvcMachineExists d client tr).1.2 = none ∧
    ((resourceOvcMachineExists d client tr).1.1 = true ↔
      ∃ mi, client.MachinesGet tr d.Id = .ok mi) ∧
    (∀ e, client.MachinesGet tr d.Id = .error e →
      (resourceOvcMachineExists d client tr).1.1 = false) ∧
    (resourceOvcMachineExists d client tr).2.1 = d ∧
    (resourceOvcMachineExists d client tr).2.2 = tr ++ [Call.MachinesGet d.Id] := by
  unfold resourceOvcMachineExists
  cases h : client.MachinesGet tr d.Id <;> simp

/-- C9 at a client whose `Get` times out and at one whose `Get` succeeds. -/
theorem C9_exists_never_errors_witness :
    (resourceOvcMachineExists unchangedData (getFailingClient "timeout") []).1.1 = false ∧
    (resourceOvcMachineExists unchangedData (getFailingClient "timeout") []).1.2 = none ∧
    (resourceOvcMachineExists unchangedData (okClient sampleMachine) []).1.1 = true :=
  ⟨(C9_exists_never_errors unchangedData (getFailingClient "timeout") []).2.2.1 "timeout" rfl,
   (C9_exists_never_errors unchangedData (getFailingClient "timeout") []).1,
   (C9_exists_never_errors unchangedData (okClient sampleMachine) []).2.1.mpr
    ⟨sampleMachine, rfl⟩⟩

/-- C10, the counterexample: the fetched machine has no account and no
interface, and `Read` keeps the prior `username`, `password` and `ip_address`
of the resource data; with another prior `username` the result is that other
value, so the attribute is not overwritten from the fetched state. -/
theorem C10_prior_value_retained_counterexample :
    (okClient bareMachine).MachinesGet [] "vm-1" = .ok bareMachine ∧
    bareMachine.Accounts = [] ∧ bareMachine.Interfaces = [] ∧
    unchangedData.cur.username = "admin" ∧
    (resourceOvcMachineRead unchangedData (okClient bareMachine) []).err = none ∧
    (resourceOvcMachineRead unchangedData (okClient bareMachine) []).d.cur.username = "admin" ∧
    (resourceOvcMachineRead unchangedData (okClient bareMachine) []).d.cur.password = "old" ∧
    (resourceOvcMachineRead unchangedData (okClient bareMachine) []).d.cur.ip_address = "10.0.0.9" ∧
    (resourceOvcMachineRead (unchangedData.Set fun a => { a with username := "guest" })
      (okClient bareMachine) []).d.cur.username = "guest" :=
  ⟨rfl, by decide, by decide, by decide, by decide, by decide, by decide, by decide, by decide⟩

/-- The attribute writes of `Read`, attribute by attribute. -/
theorem readAttrs_fields (d : ResourceData) (mi : MachineInfo) :
    (readAttrs d mi).id = d.id ∧
    (readAttrs d mi).cur.memory = mi.Memory ∧
    (readAttrs d mi).cur.size_id = mi.Sizeid ∧
    (readAttrs d mi).cur.vcpus = mi.Vcpus ∧
    (readAttrs d mi).cur.disks = flattenDisks (some mi) ∧
    (readAttrs d mi).cur.username = (mi.Accounts.head?.map (·.Login)).getD d.cur.username ∧
    (readAttrs d mi).cur.password = (mi.Accounts.head?.map (·.Password)).getD d.cur.password ∧
    (readAttrs d mi).cur.ip_address =
      (mi.Interfaces.head?.map (·.IPAddress)).getD d.cur.ip_address := by
  unfold readAttrs
  cases mi.Accounts <;> cases mi.Interfaces <;> simp [ResourceData.Set]

/-- C10, amended. Read round trip: after a `Read` whose `Get` succeeded,
`memory`, `size_id` and `vcpus` equal the fetched values whatever the prior
attributes were, and `disks` has one record per fetched disk, in the same
order, none filtered out, each with that disk's status, name, description,
type, id and size_max; `username` and `password` equal the login and password
of the first fetched account when there is one, and `ip_address` the address
of the first fetched interface when there is one; with no account, or no
interface, the prior value stays. The identifier is kept and no error is
returned. -/
theorem C10_read_round_trip (d : ResourceData) (client : Client) (tr : List Call)
    (mi : MachineInfo) (hget : client.MachinesGet tr d.Id = .ok mi) :
    (resourceOvcMachineRead d client tr).err = none ∧
    (resourceOvcMachineRead d client tr).d.id = d.id ∧
    (resourceOvcMachineRead d client tr).d.cur.memory = mi.Memory ∧
    (resourceOvcMachineRead d client tr).d.cur.size_id = mi.Sizeid ∧
    (resourceOvcMachineRead d client tr).d.cur.vcpus = mi.Vcpus ∧
    (resourceOvcMachineRead d client tr).d.cur.disks = flattenDisks (some mi) ∧
    (resourceOvcMachineRead d client tr).d.cur.disks.length = mi.Disks.length ∧
    (∀ (i : Nat) (disk : DiskInfo), mi.Disks[i]? = some disk →
      ∃ r, (resourceOvcMachineRead d client tr).d.cur.disks[i]? = some r ∧
        r.status = disk.Status ∧ r.name = disk.Name ∧ r.description = disk.Descr ∧
        r.type = disk.Type_ ∧ r.id = disk.ID ∧ r.size_max = disk.SizeMax) ∧
    (∀ account rest, mi.Accounts = account :: rest →
      (resourceOvcMachineRead d client tr).d.cur.username = account.Login ∧
      (resourceOvcMachineRead d client tr).d.cur.password = account.Password) ∧
    (mi.Accounts = [] →
      (resourceOvcMachineRead d client tr).d.cur.username = d.cur.username ∧
      (resourceOvcMachineRead d client tr).d.cur.password = d.cur.password) ∧
    (∀ iface rest, mi.Interfaces = iface :: rest →
      (resourceOvcMachineRead d client tr).d.cur.ip_address = iface.IPAddress) ∧
    (mi.Interfaces = [] →
      (resourceOvcMachineRead d client tr).d.cur.ip_address = d.cur.ip_address) := by
  have hr : resourceOvcMachineRead d client tr =
      { err := none, d := readAttrs d mi, trace := tr ++ [Call.MachinesGet d.Id] } := by
    simp [resourceOvcMachineRead, hget]
  obtain ⟨hid, hmem, hsz, hvc, hdk, hus, hpw, hip⟩ := readAttrs_fields d mi
  rw [hr]
  refine ⟨rfl, hid, hmem, hsz, hvc, hdk, ?_, ?_, ?_, ?_, ?_, ?_⟩
  · simp [hdk, flattenDisks]
  · intro i disk hi
    simp only [hdk, flattenDisks, List.getElem?_map, hi, Option.map_some']
    exact ⟨_, rfl, rfl, rfl, rfl, rfl, rfl, rfl⟩
  · intro account rest ha
    simp [hus, hpw, ha]
  · intro ha
    simp [hus, hpw, ha]
  · intro iface rest hi
    simp [hip, hi]
  · intro hi
    simp [hip, hi]

/-- C10 at the sample machine, read into resource data that held other values. -/
theorem C10_read_round_trip_witness :
    (resourceOvcMachineRead unchangedData (okClient sampleMachine) []).d.cur.username = "root" ∧
    (resourceOvcMachineRead unchangedData (okClient sampleMachine) []).d.cur.password = "s3cret" ∧
    (resourceOvcMachineRead unchangedData (okClient sampleMachine) []).d.cur.disks.length = 2 :=
  ⟨((C10_read_round_trip unchangedData (okClient sampleMachine) [] sampleMachine rfl).2.2.2.2.2.2.2.2.1
      _ _ rfl).1,
   ((C10_read_round_trip unchangedData (okClient sampleMachine) [] sampleMachine rfl).2.2.2.2.2.2.2.2.1
      _ _ rfl).2,
   (C10_read_round_trip unchangedData (okClient sampleMachine) [] sampleMachine rfl).2.2.2.2.2.2.1⟩

/-- The calls of `resourceOvcMachineCreate` are `Machines.Create`,
`Machines.Get` and `Disks.Update` calls only. -/
theorem Create_call_kinds (d : ResourceData) (client : Client) (tr : List Call) :
    ∃ new, (resourceOvcMachineCreate d client tr).trace = tr ++ new ∧
      ∀ c ∈ new, (∃ cfg, c = Call.MachinesCreate cfg) ∨ (∃ id, c = Call.MachinesGet id) ∨
        (∃ cfg, c = Call.DisksUpdate cfg) := by
  unfold resourceOvcMachineCreate
  dsimp only
  split
  · exact ⟨[_], rfl, by simp⟩
  · rename_i machineID hc
    have hb := GetBootDiskID_trace client machineID (tr ++ [Call.MachinesCreate (createConfig d)])
    split
    · rename_i err tr2 h
      rw [h] at hb
      simp only at hb
      subst hb
      exact ⟨[Call.MachinesCreate (createConfig d), Call.MachinesGet machineID], by simp,
        by simp⟩
    · rename_i bootDiskID tr2 h
      rw [h] at hb
      simp only at hb
      subst hb
      split
      · exact ⟨[Call.MachinesCreate (createConfig d), Call.MachinesGet machineID,
          Call.DisksUpdate
            { DiskID := bootDiskID, IOPS := (d.SetId machineID).Get (·.iops) }],
          by simp, by simp⟩
      · exact ⟨[Call.MachinesCreate (createConfig d), Call.MachinesGet machineID,
          Call.DisksUpdate
            { DiskID := bootDiskID, IOPS := (d.SetId machineID).Get (·.iops) },
          Call.MachinesGet (d.SetId machineID).Id],
          by simp [Read_trace], by simp⟩

/-- C8. Create with IOPS: if `Machines.Create` fails, `Create` returns that
error, the identifier is not assigned and no further call is made. If it
succeeds, the returned identifier is assigned and the boot disk is looked up
with one `Get`; if the lookup fails (the `Get` fails, or no disk has type
"B"), `Create` returns that error with the identifier kept; if the machine
has exactly one boot disk, one `Disks.Update` follows with `DiskID` the boot
disk's identifier and `IOPS` the value of `iops`, and if that call fails
`Create` returns its error with the identifier kept, else it ends with the
`Read` and no error. No `Machines.Delete` is ever issued. For a configuration
with `iops` set, the value `Create` reads is the configured one. -/
theorem C8_create_with_iops (d : ResourceData) (client : Client) (tr : List Call) :
    (∀ e, client.MachinesCreate tr (createConfig d) = .error e →
      resourceOvcMachineCreate d client tr =
        { err := some e, d := d, trace := tr ++ [Call.MachinesCreate (createConfig d)] }) ∧
    (∀ machineID, client.MachinesCreate tr (createConfig d) = .ok machineID →
      (∀ e, client.MachinesGet (tr ++ [Call.MachinesCreate (createConfig d)]) machineID = .error e →
        resourceOvcMachineCreate d client tr =
          { err := some e, d := d.SetId machineID,
            trace := tr ++ [Call.MachinesCreate (createConfig d), Call.MachinesGet machineID] }) ∧
      (∀ mi, client.MachinesGet (tr ++ [Call.MachinesCreate (createConfig d)]) machineID = .ok mi →
        (∀ x ∈ mi.Disks, x.Type_ ≠ "B") →
        resourceOvcMachineCreate d client tr =
          { err := some (noBootDiskErr mi.Name), d := d.SetId machineID,
            trace := tr ++ [Call.MachinesCreate (createConfig d), Call.MachinesGet machineID] }) ∧
      (∀ mi b, client.MachinesGet (tr ++ [Call.MachinesCreate (createConfig d)]) machineID = .ok mi →
        mi.Disks.filter (fun x => decide (x.Type_ = "B")) = [b] →
        (∀ e, client.DisksUpdate
              (tr ++ [Call.MachinesCreate (createConfig d), Call.MachinesGet machineID])
              { DiskID := b.ID, IOPS := d.Get (·.iops) } = some e →
          resourceOvcMachineCreate d client tr =
            { err := some e, d := d.SetId machineID,
              trace := tr ++ [Call.MachinesCreate (createConfig d), Call.MachinesGet machineID,
                Call.DisksUpdate { DiskID := b.ID, IOPS := d.Get (·.iops) }] }) ∧
        (client.DisksUpdate
              (tr ++ [Call.MachinesCreate (createConfig d), Call.MachinesGet machineID])
              { DiskID := b.ID, IOPS := d.Get (·.iops) } = none →
          resourceOvcMachineCreate d client tr =
            resourceOvcMachineRead (d.SetId machineID) client
              (tr ++ [Call.MachinesCreate (createConfig d), Call.MachinesGet machineID,
                Call.DisksUpdate { DiskID := b.ID, IOPS := d.Get (·.iops) }]) ∧
          (resourceOvcMachineCreate d client tr).err = none ∧
          (resourceOvcMachineCreate d client tr).trace =
            tr ++ [Call.MachinesCreate (createConfig d), Call.MachinesGet machineID,
              Call.DisksUpdate { DiskID := b.ID, IOPS := d.Get (·.iops) },
              Call.MachinesGet machineID]))) ∧
    (∀ cfg, Call.MachinesDelete cfg ∈ (resourceOvcMachineCreate d client tr).trace →
      Call.MachinesDelete cfg ∈ tr) ∧
    (∀ (cfg : DesiredConfig) (v : Int), cfg.iops = some v →
      (ResourceData.fresh "" {} (plan {} cfg)).Get (·.iops) = v) := by
  refine ⟨fun e hc => ?_, fun machineID hc => ⟨fun e hg => ?_, fun mi hg hno => ?_,
    fun mi b hg hone => ⟨fun e hu => ?_, fun hu => ?_⟩⟩, fun cfg hmem => ?_, fun cfg v hv => ?_⟩
  · simp [resourceOvcMachineCreate, hc]
  · simp [resourceOvcMachineCreate, hc, GetBootDiskID, hg]
  · simp [resourceOvcMachineCreate, hc, GetBootDiskID, hg, bootDiskLoop_none _ hno]
  · have hl := bootDiskLoop_of_filter _ b hone
    simp only [List.append_assoc, List.singleton_append] at hu
    simp [resourceOvcMachineCreate, hc, GetBootDiskID, hg, hl, ResourceData.Get,
      ResourceData.SetId, hu] at hu ⊢
  · have hl := bootDiskLoop_of_filter _ b hone
    have hcr : resourceOvcMachineCreate d client tr =
        resourceOvcMachineRead (d.SetId machineID) client
          (tr ++ [Call.MachinesCreate (createConfig d), Call.MachinesGet machineID,
            Call.DisksUpdate { DiskID := b.ID, IOPS := d.Get (·.iops) }]) := by
      simp [ResourceData.Get] at hu
      simp [resourceOvcMachineCreate, hc, GetBootDiskID, hg, hl, ResourceData.Get,
        ResourceData.SetId, hu]
    refine ⟨hcr, ?_, ?_⟩
    · rw [hcr, Read_err]
    · rw [hcr, Read_trace]
      simp [ResourceData.Id, ResourceData.SetId]
  · obtain ⟨new, ht, hk⟩ := Create_call_kinds d client tr
    rw [ht] at hmem
    rcases List.mem_append.mp hmem with h | h
    · exact h
    · rcases hk _ h with ⟨c, hc⟩ | ⟨c, hc⟩ | ⟨c, hc⟩ <;> cases hc
  · simp [ResourceData.fresh, ResourceData.Get, plan, hv]

/-- C8 at the create scenario (memory 1024, vcpus 2, iops 500): with a client
that accepts everything, with one that rejects `Machines.Create`, and with one
that rejects `Disks.Update`. -/
theorem C8_create_with_iops_witness :
    (resourceOvcMachineCreate createData (okClient sampleMachine) []).trace =
      [Call.MachinesCreate (createConfig createData), Call.MachinesGet "vm-1",
        Call.DisksUpdate { DiskID := 42, IOPS := 500 }, Call.MachinesGet "vm-1"] ∧
    resourceOvcMachineCreate createData (createFailingClient "quota") [] =
      { err := some "quota", d := createData,
        trace := [Call.MachinesCreate (createConfig createData)] } ∧
    resourceOvcMachineCreate createData (diskFailingClient "busy") [] =
      { err := some "busy", d := createData.SetId "vm-1",
        trace := [Call.MachinesCreate (createConfig createData), Call.MachinesGet "vm-1",
          Call.DisksUpdate { DiskID := 42, IOPS := 500 }] } :=
  ⟨((((C8_create_with_iops createData (okClient sampleMachine) []).2.1 "vm-1" rfl).2.2
      sampleMachine sampleBootDisk rfl (by decide)).2 rfl).2.2,
   (C8_create_with_iops createData (createFailingClient "quota") []).1 "quota" rfl,
   (((C8_create_with_iops createData (diskFailingClient "busy") []).2.1 "vm-1" rfl).2.2
      sampleMachine sampleBootDisk rfl (by decide)).1 "busy" rfl⟩

/-- C3, the counterexample: `vcpus` and `disksize` changed together and
nothing else, the resize call succeeds, and the machine has no boot disk. The
pass issues one group call only, the resize, then the lookup's `Get`, and
returns the no-boot-disk error: no `Disks.Update` occurs. -/
theorem C3_single_group_call_counterexample :
    resizedData.HasChange (·.vcpus) = true ∧ resizedData.HasChange (·.disksize) = true ∧
    resizedData.HasChange (·.name) = false ∧ resizedData.HasChange (·.description) = false ∧
    resizedData.HasChange (·.memory) = false ∧ resizedData.HasChange (·.iops) = false ∧
    (okClient bareMachine).fails [] (Call.MachinesResize (updateConfigResize resizedData)) = false ∧
    resourceOvcMachineUpdate resizedData (okClient bareMachine) [] =
      { err := some "Machine web1 has no boot disk", d := resizedData,
        trace := [Call.MachinesResize { MachineID := "vm-1", Memory := 1024, Vcpus := 4 },
                  Call.MachinesGet "vm-1"] } ∧
    ((resourceOvcMachineUpdate resizedData (okClient bareMachine) []).calls []).filter
        (fun c => c.group.isSome) =
      [Call.MachinesResize { MachineID := "vm-1", Memory := 1024, Vcpus := 4 }] := by
  refine ⟨by decide, by decide, by decide, by decide, by decide, by decide, by decide,
    by decide, by decide⟩

/-- The configuration sent by the resize call when neither `name` nor
`description` changed. -/
theorem updateConfigResize_plain (d : ResourceData) (hn : d.HasChange (·.name) = false)
    (hd : d.HasChange (·.description) = false) :
    updateConfigResize d =
      { MachineID := d.Id, Memory := d.Get (·.memory), Vcpus := d.Get (·.vcpus) } := by
  simp [updateConfigResize, updateConfigAfterMeta, updateConfigName, hn, hd]

/-- C3, amended. Update ordering and abort. In every update pass the group
calls appear in the order metadata update, resize, disk update, each at most
once, and a failing group call is the last call of the pass. In a pass in
which `vcpus` and `disksize` changed and `name`, `description`, `memory` and
`iops` did not, the first call is the resize, carrying the identifier, memory
and vcpus; if it fails, Update returns that error and neither the boot disk
lookup nor the disk update is attempted; if it succeeds, the lookup follows,
and a failing lookup (the `Get` fails, or no boot disk) ends the pass with
that error and without a disk update; if the lookup finds a boot disk, the
disk update for that disk with the new size follows, so that exactly two
group calls occur, the resize first and the disk update second. -/
theorem C3_update_order_and_abort (d : ResourceData) (client : Client) (tr : List Call) :
    ((resourceOvcMachineUpdate d client tr).trace =
        tr ++ (resourceOvcMachineUpdate d client tr).calls tr ∧
      (((resourceOvcMachineUpdate d client tr).calls tr).filterMap Call.group).Pairwise (· < ·) ∧
      failingGroupCallIsLast client tr ((resourceOvcMachineUpdate d client tr).calls tr) = true) ∧
    (d.HasChange (·.vcpus) = true → d.HasChange (·.disksize) = true →
      d.HasChange (·.name) = false → d.HasChange (·.description) = false →
      d.HasChange (·.memory) = false → d.HasChange (·.iops) = false →
      updateConfigResize d =
        { MachineID := d.Id, Memory := d.Get (·.memory), Vcpus := d.Get (·.vcpus) } ∧
      (∀ e, client.MachinesResize tr (updateConfigResize d) = .error e →
        resourceOvcMachineUpdate d client tr =
          { err := some e, d := d,
            trace := tr ++ [Call.MachinesResize (updateConfigResize d)] }) ∧
      (∀ v, client.MachinesResize tr (updateConfigResize d) = .ok v →
        (∀ e, client.MachinesGet (tr ++ [Call.MachinesResize (updateConfigResize d)]) d.Id =
            .error e →
          resourceOvcMachineUpdate d client tr =
            { err := some e, d := d,
              trace := tr ++ [Call.MachinesResize (updateConfigResize d),
                Call.MachinesGet d.Id] }) ∧
        (∀ mi, client.MachinesGet (tr ++ [Call.MachinesResize (updateConfigResize d)]) d.Id =
            .ok mi →
          (bootDiskLoop mi.Disks = none →
            resourceOvcMachineUpdate d client tr =
              { err := some (noBootDiskErr mi.Name), d := d,
                trace := tr ++ [Call.MachinesResize (updateConfigResize d),
                  Call.MachinesGet d.Id] }) ∧
          (∀ bootDiskID, bootDiskLoop mi.Disks = some bootDiskID →
            ((resourceOvcMachineUpdate d client tr).calls tr).filter (fun c => c.group.isSome) =
              [Call.MachinesResize (updateConfigResize d),
                Call.DisksUpdate { DiskID := bootDiskID, Size := d.Get (·.disksize) }] ∧
            (∀ e, client.DisksUpdate
                  (tr ++ [Call.MachinesResize (updateConfigResize d), Call.MachinesGet d.Id])
                  { DiskID := bootDiskID, Size := d.Get (·.disksize) } = some e →
              resourceOvcMachineUpdate d client tr =
                { err := some e, d := d,
                  trace := tr ++ [Call.MachinesResize (updateConfigResize d),
                    Call.MachinesGet d.Id,
                    Call.DisksUpdate { DiskID := bootDiskID, Size := d.Get (·.disksize) }] }) ∧
            (client.DisksUpdate
                  (tr ++ [Call.MachinesResize (updateConfigResize d), Call.MachinesGet d.Id])
                  { DiskID := bootDiskID, Size := d.Get (·.disksize) } = none →
              resourceOvcMachineUpdate d client tr =
                resourceOvcMachineRead d client
                  (tr ++ [Call.MachinesResize (updateConfigResize d), Call.MachinesGet d.Id,
                    Call.DisksUpdate
                      { DiskID := bootDiskID, Size := d.Get (·.disksize) }])))))) := by
  constructor
  · obtain ⟨new, ht, -, hp, hf⟩ := Update_run d client tr
    rw [calls_of_trace _ tr new ht]
    exact ⟨ht, hp, hf⟩
  · intro hv hdsk hn hd hm hi
    have hdc : ∀ bootDiskID, updateDiskConfig d bootDiskID =
        { DiskID := bootDiskID, Size := d.Get (·.disksize) } := by
      intro bootDiskID
      simp [updateDiskConfig, hi, hdsk]
    refine ⟨updateConfigResize_plain d hn hd, fun e he => ?_, fun v hok => ⟨fun e hg => ?_,
      fun mi hg => ⟨fun hnone => ?_, fun bootDiskID hsome => ?_⟩⟩⟩
    · simp [resourceOvcMachineUpdate, updateResizeBlock, hd, hm, hv, he]
    · simp [resourceOvcMachineUpdate, updateResizeBlock, updateDiskBlock, hd, hm, hv, hok, hi,
        hdsk, GetBootDiskID, hg]
    · simp [resourceOvcMachineUpdate, updateResizeBlock, updateDiskBlock, hd, hm, hv, hok, hi,
        hdsk, GetBootDiskID, hg, hnone]
    · have hfail : ∀ e, client.DisksUpdate
            (tr ++ [Call.MachinesResize (updateConfigResize d), Call.MachinesGet d.Id])
            { DiskID := bootDiskID, Size := d.Get (·.disksize) } = some e →
          resourceOvcMachineUpdate d client tr =
            { err := some e, d := d,
              trace := tr ++ [Call.MachinesResize (updateConfigResize d),
                Call.MachinesGet d.Id,
                Call.DisksUpdate { DiskID := bootDiskID, Size := d.Get (·.disksize) }] } := by
        intro e hu
        simp [resourceOvcMachineUpdate, updateResizeBlock, updateDiskBlock, hd, hm, hv, hok, hi,
          hdsk, GetBootDiskID, hg, hsome, hdc, hu]
      have hsucc : client.DisksUpdate
            (tr ++ [Call.MachinesResize (updateConfigResize d), Call.MachinesGet d.Id])
            { DiskID := bootDiskID, Size := d.Get (·.disksize) } = none →
          resourceOvcMachineUpdate d client tr =
            resourceOvcMachineRead d client
              (tr ++ [Call.MachinesResize (updateConfigResize d), Call.MachinesGet d.Id,
                Call.DisksUpdate { DiskID := bootDiskID, Size := d.Get (·.disksize) }]) := by
        intro hu
        simp [resourceOvcMachineUpdate, updateResizeBlock, updateDiskBlock, hd, hm, hv, hok, hi,
          hdsk, GetBootDiskID, hg, hsome, hdc, hu]
      refine ⟨?_, hfail, hsucc⟩
      cases hu : client.DisksUpdate
          (tr ++ [Call.MachinesResize (updateConfigResize d), Call.MachinesGet d.Id])
          { DiskID := bootDiskID, Size := d.Get (·.disksize) } with
      | none =>
        rw [calls_of_trace _ tr _ (by rw [hsucc hu, Read_trace, List.append_assoc])]
        simp [Call.group]
      | some e =>
        rw [calls_of_trace _ tr _ (by rw [hfail e hu])]
        simp [Call.group]

/-- C3 at an update of `vcpus` (2 to 4) and `disksize` (20 to 40): with a
client that rejects the resize, and with one that accepts everything. -/
theorem C3_update_order_and_abort_witness :
    resourceOvcMachineUpdate resizedData (resizeFailingClient sampleMachine "denied") [] =
      { err := some "denied", d := resizedData,
        trace := [Call.MachinesResize (updateConfigResize resizedData)] } ∧
    ((resourceOvcMachineUpdate resizedData (okClient sampleMachine) []).calls []).filter
        (fun c => c.group.isSome) =
      [Call.MachinesResize (updateConfigResize resizedData),
        Call.DisksUpdate { DiskID := 42, Size := 40 }] ∧
    failingGroupCallIsLast (okClient sampleMachine) []
      ((resourceOvcMachineUpdate resizedData (okClient sampleMachine) []).calls []) = true :=
  ⟨((C3_update_order_and_abort resizedData (resizeFailingClient sampleMachine "denied") []).2
      (by decide) (by decide) (by decide) (by decide) (by decide) (by decide)).2.1 "denied" rfl,
   ((((C3_update_order_and_abort resizedData (okClient sampleMachine) []).2
      (by decide) (by decide) (by decide) (by decide) (by decide) (by decide)).2.2 "true" rfl).2
      sampleMachine rfl).2 42 (by decide) |>.1,
   (C3_update_order_and_abort resizedData (okClient sampleMachine) []).1.2.2⟩

/-- C4, the defect: in an update pass in which `name` changed and
`description` did not, the pass goes straight to the resize block and no
`Machines.Update` call is issued, although the new name was put into the
configuration. -/
theorem C4_name_only_issues_no_metadata_update (d : ResourceData) (client : Client)
    (tr : List Call) (hn : d.HasChange (·.name) = true)
    (hd : d.HasChange (·.description) = false) :
    (updateConfigName d).Name = d.Get (·.name) ∧
    resourceOvcMachineUpdate d client tr = updateResizeBlock d client tr ∧
    ∀ cfg, Call.MachinesUpdate cfg ∉ (resourceOvcMachineUpdate d client tr).calls tr := by
  refine ⟨by simp [updateConfigName, hn], by simp [resourceOvcMachineUpdate, hd], ?_⟩
  obtain ⟨new, ht, hm, -, -⟩ := Update_run d client tr
  rw [calls_of_trace _ tr new ht]
  intro cfg hmem
  rcases hm _ hmem 0 rfl with h | h | h
  · rw [hd] at h
    exact Bool.false_ne_true h.2
  · exact absurd h.1 (by decide)
  · exact absurd h.1 (by decide)

/-- C4 at the failing input: the stored name "web1" becomes "web2", nothing
else changes, every remote call would succeed; the pass issues the final `Get`
only. -/
theorem C4_name_only_issues_no_metadata_update_witness :
    resourceOvcMachineUpdate renamedData (okClient sampleMachine) [] =
      updateResizeBlock renamedData (okClient sampleMachine) [] ∧
    (resourceOvcMachineUpdate renamedData (okClient sampleMachine) []).trace =
      [Call.MachinesGet "vm-1"] ∧
    (resourceOvcMachineUpdate renamedData (okClient sampleMachine) []).err = none :=
  ⟨(C4_name_only_issues_no_metadata_update renamedData (okClient sampleMachine) []
      (by decide) (by decide)).2.1, by decide, by decide⟩

/-- C5. No call for an unchanged group: in every update pass a
`Machines.Update` call is issued only if `name` or `description` changed, a
`Machines.Resize` call only if `memory` or `vcpus` changed, a `Disks.Update`
call only if `iops` or `disksize` changed. With none of the six changed the
pass is the final `Read`, its only call being that `Get`. With `description`
changed and the other five not, the pass issues the metadata update carrying
the identifier and the new description, returns its error if it fails, and
else goes on to the final `Read`: one group call, no resize, no boot disk
lookup, no disk update. -/
theorem C5_no_call_for_unchanged_group (d : ResourceData) (client : Client) (tr : List Call) :
    (resourceOvcMachineUpdate d client tr).trace =
      tr ++ (resourceOvcMachineUpdate d client tr).calls tr ∧
    (∀ cfg, Call.MachinesUpdate cfg ∈ (resourceOvcMachineUpdate d client tr).calls tr →
      d.HasChange (·.name) = true ∨ d.HasChange (·.description) = true) ∧
    (∀ cfg, Call.MachinesResize cfg ∈ (resourceOvcMachineUpdate d client tr).calls tr →
      d.HasChange (·.memory) = true ∨ d.HasChange (·.vcpus) = true) ∧
    (∀ cfg, Call.DisksUpdate cfg ∈ (resourceOvcMachineUpdate d client tr).calls tr →
      d.HasChange (·.iops) = true ∨ d.HasChange (·.disksize) = true) ∧
    (d.HasChange (·.name) = false → d.HasChange (·.description) = false →
      d.HasChange (·.memory) = false → d.HasChange (·.vcpus) = false →
      d.HasChange (·.iops) = false → d.HasChange (·.disksize) = false →
      resourceOvcMachineUpdate d client tr = resourceOvcMachineRead d client tr ∧
      (resourceOvcMachineUpdate d client tr).calls tr = [Call.MachinesGet d.Id]) ∧
    (d.HasChange (·.description) = true → d.HasChange (·.name) = false →
      d.HasChange (·.memory) = false → d.HasChange (·.vcpus) = false →
      d.HasChange (·.iops) = false → d.HasChange (·.disksize) = false →
      updateConfigMeta d = { MachineID := d.Id, Description := d.Get (·.description) } ∧
      (∀ e, client.MachinesUpdate tr (updateConfigMeta d) = .error e →
        resourceOvcMachineUpdate d client tr =
          { err := some e, d := d, trace := tr ++ [Call.MachinesUpdate (updateConfigMeta d)] }) ∧
      (∀ v, client.MachinesUpdate tr (updateConfigMeta d) = .ok v →
        resourceOvcMachineUpdate d client tr =
          resourceOvcMachineRead d client (tr ++ [Call.MachinesUpdate (updateConfigMeta d)])) ∧
      ((resourceOvcMachineUpdate d client tr).calls tr).filter (fun c => c.group.isSome) =
        [Call.MachinesUpdate (updateConfigMeta d)] ∧
      ((resourceOvcMachineUpdate d client tr).calls tr =
          [Call.MachinesUpdate (updateConfigMeta d)] ∨
        (resourceOvcMachineUpdate d client tr).calls tr =
          [Call.MachinesUpdate (updateConfigMeta d), Call.MachinesGet d.Id])) := by
  obtain ⟨new, ht, hmem, -, -⟩ := Update_run d client tr
  have hcalls := calls_of_trace _ tr new ht
  refine ⟨by rw [hcalls]; exact ht, fun cfg hc => ?_, fun cfg hc => ?_, fun cfg hc => ?_,
    fun hn hd hm hv hi hdsk => ?_, fun hd hn hm hv hi hdsk => ?_⟩
  · rw [hcalls] at hc
    rcases hmem _ hc 0 rfl with h | h | h
    · exact Or.inr h.2
    · exact absurd h.1 (by decide)
    · exact absurd h.1 (by decide)
  · rw [hcalls] at hc
    rcases hmem _ hc 1 rfl with h | h | h
    · exact absurd h.1 (by decide)
    · exact h.2
    · exact absurd h.1 (by decide)
  · rw [hcalls] at hc
    rcases hmem _ hc 2 rfl with h | h | h
    · exact absurd h.1 (by decide)
    · exact absurd h.1 (by decide)
    · exact h.2
  · have hu : resourceOvcMachineUpdate d client tr = resourceOvcMachineRead d client tr := by
      simp [resourceOvcMachineUpdate, updateResizeBlock, updateDiskBlock, hd, hm, hv, hi, hdsk]
    exact ⟨hu, calls_of_trace _ tr _ (by rw [hu, Read_trace])⟩
  · have hfail : ∀ e, client.MachinesUpdate tr (updateConfigMeta d) = .error e →
        resourceOvcMachineUpdate d client tr =
          { err := some e, d := d,
            trace := tr ++ [Call.MachinesUpdate (updateConfigMeta d)] } := by
      intro e he
      simp [resourceOvcMachineUpdate, hd, he]
    have hsucc : ∀ v, client.MachinesUpdate tr (updateConfigMeta d) = .ok v →
        resourceOvcMachineUpdate d client tr =
          resourceOvcMachineRead d client (tr ++ [Call.MachinesUpdate (updateConfigMeta d)]) := by
      intro v hok
      simp [resourceOvcMachineUpdate, updateResizeBlock, updateDiskBlock, hd, hm, hv, hi, hdsk,
        hok]
    have hshape : (resourceOvcMachineUpdate d client tr).calls tr =
          [Call.MachinesUpdate (updateConfigMeta d)] ∨
        (resourceOvcMachineUpdate d client tr).calls tr =
          [Call.MachinesUpdate (updateConfigMeta d), Call.MachinesGet d.Id] := by
      cases hr : client.MachinesUpdate tr (updateConfigMeta d) with
      | error e => exact Or.inl (calls_of_trace _ tr _ (by rw [hfail e hr]))
      | ok v =>
        exact Or.inr (calls_of_trace _ tr _ (by rw [hsucc v hr, Read_trace, List.append_assoc]; rfl))
    refine ⟨by simp [updateConfigMeta, updateConfigName, hn], hfail, hsucc, ?_, hshape⟩
    rcases hshape with h | h <;> rw [h] <;> simp [Call.group]

/-- C5 at an update with nothing changed and at one that changes only
`description`, every remote call succeeding. -/
theorem C5_no_call_for_unchanged_group_witness :
    (resourceOvcMachineUpdate unchangedData (okClient sampleMachine) []).calls [] =
      [Call.MachinesGet "vm-1"] ∧
    ((resourceOvcMachineUpdate redescribedData (okClient sampleMachine) []).calls []).filter
        (fun c => c.group.isSome) =
      [Call.MachinesUpdate (updateConfigMeta redescribedData)] ∧
    updateConfigMeta redescribedData = { MachineID := "vm-1", Description := "back" } :=
  ⟨((C5_no_call_for_unchanged_group unchangedData (okClient sampleMachine) []).2.2.2.2.1
      (by decide) (by decide) (by decide) (by decide) (by decide) (by decide)).2,
   ((C5_no_call_for_unchanged_group redescribedData (okClient sampleMachine) []).2.2.2.2.2
      (by decide) (by decide) (by decide) (by decide) (by decide) (by decide)).2.2.2.1,
   ((C5_no_call_for_unchanged_group redescribedData (okClient sampleMachine) []).2.2.2.2.2
      (by decide) (by decide) (by decide) (by decide) (by decide) (by decide)).1⟩

end Ovc
